import Mathlib

/-!
Verification of the functional core of the financial_manager repository:
the report services in `core/service.py` and the immutable state helpers in
`core/state_utils.py`, embedded shallowly as Lean functions over the domain
records of `core/domain.py`.
-/

namespace FinMan

/-- Modelled from the spec: the `Account` record of `core/domain.py` (the file
is not part of the provided sources); fields per §3 of the spec: `id`, `name`,
`balance` (integer minor units), `currency`. -/
structure Account where
  id : String
  name : String
  balance : Int
  currency : String
deriving DecidableEq, Repr

/-- Modelled from the spec: the `Category` record of `core/domain.py`:
`id`, `name`, `parent_id` (optional). -/
structure Category where
  id : String
  name : String
  parent_id : Option String
deriving DecidableEq, Repr

/-- Modelled from the spec: the `Transaction` record of `core/domain.py`:
`id`, `account_id`, `cat_id`, `amount` (signed integer; negative = expense),
`ts` (ISO-8601 string), `note`. -/
structure Transaction where
  id : String
  account_id : String
  cat_id : String
  amount : Int
  ts : String
  note : String
deriving DecidableEq, Repr

/-- Modelled from the spec: the `Budget` record of `core/domain.py`:
`id`, `cat_id`, `limit`, `period` (implied monthly granularity). -/
structure Budget where
  id : String
  cat_id : String
  limit : Int
  period : String
deriving DecidableEq, Repr

/-- The application `State` dict: `{accounts, categories, transactions,
budgets, alerts}` (spec §3; built in `app/main.py`). `{**state, "key": v}`
updates in `core/state_utils.py` keep every other field. -/
structure State where
  accounts : List Account
  categories : List Category
  transactions : List Transaction
  budgets : List Budget
  alerts : List String
deriving DecidableEq, Repr

/-- A Python dict is modelled by its sequence of key assignments; a read
returns the value of the most recent assignment to the key (an assignment to
an existing key overwrites its value). `dictGet d k` is `d[k]` as an
`Option`. -/
def dictGet {α : Type} (d : List (String × α)) (k : String) : Option α :=
  (d.reverse.find? (fun p => p.1 == k)).map Prod.snd

/-- One entry of the mapping returned by `BudgetService.monthly_report`:
`{"limit": ..., "spent": ..., "status": ...}`. -/
structure BudgetEntry where
  limit : Int
  spent : Int
  status : String
deriving DecidableEq, Repr

/-- The `spent` sum of `BudgetService.monthly_report` (src/core/service.py,
lines 21-23): `sum(abs(t.amount) for t in trans if t.cat_id == b.cat_id and
t.amount < 0)`. -/
def spentFor (trans : List Transaction) (c : String) : Int :=
  ((trans.filter (fun t => t.cat_id == c && decide (t.amount < 0))).map
    (fun t => |t.amount|)).sum

/-- The entry `report[b.id]` built for a budget `b` by
`BudgetService.monthly_report` (src/core/service.py, lines 21-25):
`status = "OK" if spent <= b.limit else "OVER"`. -/
def reportEntry (trans : List Transaction) (b : Budget) : BudgetEntry :=
  let spent := spentFor trans b.cat_id
  { limit := b.limit, spent := spent,
    status := if spent ≤ b.limit then "OK" else "OVER" }

/-- `BudgetService.monthly_report` (src/core/service.py, lines 11-26): the
loop `report[b.id] = {...}` over `budgets` produces this assignment sequence
(read through `dictGet`). The `validators`/`calculators` held by the service
object are not consulted by this method. -/
def monthly_report (budgets : List Budget) (trans : List Transaction) :
    List (String × BudgetEntry) :=
  budgets.map (fun b => (b.id, reportEntry trans b))

/-- Python's `s.startswith(p)`: the first `len(p)` characters of `s` equal
`p` (stated on the character list so that it evaluates by kernel
reduction). -/
def strStartsWith (s p : String) : Bool := s.data.take p.data.length == p.data

/-- One month's sum in `ReportService.expenses_by_month`
(src/core/service.py, lines 55-61): `calc_month(m)` returns
`sum(abs(t.amount) for t in trans if t.ts.startswith(m) and t.amount < 0)`
(the `asyncio.sleep` delay has no effect on the value). -/
def calc_month (trans : List Transaction) (m : String) : Int :=
  ((trans.filter (fun t => strStartsWith t.ts m && decide (t.amount < 0))).map
    (fun t => |t.amount|)).sum

/-- `ReportService.expenses_by_month` (src/core/service.py, lines 46-67):
`results = await asyncio.gather(*[calc_month(m) for m in months])` yields the
per-month sums positionally, and `dict(zip(months, results))` is this
assignment sequence. The function takes no deadline or timeout argument and
has no failure path. -/
def expenses_by_month (trans : List Transaction) (months : List String) :
    List (String × Int) :=
  months.zip (months.map (calc_month trans))

/-- The result record of `ReportService.category_report`. -/
structure CategoryReport where
  cat_id : String
  total_expense : Int
  transaction_count : Nat
deriving DecidableEq, Repr

/-- `ReportService.category_report` (src/core/service.py, lines 33-44):
`filtered = [t for t in trans if t.cat_id == cat_id and t.amount < 0]`,
`total = sum(abs(t.amount) for t in filtered)`, `count = len(filtered)`. -/
def category_report (cat_id : String) (trans : List Transaction) :
    CategoryReport :=
  let filtered := trans.filter (fun t => t.cat_id == cat_id && decide (t.amount < 0))
  { cat_id := cat_id,
    total_expense := (filtered.map (fun t => |t.amount|)).sum,
    transaction_count := filtered.length }

/-- `update_account_balance` (src/core/state_utils.py, lines 6-13): rebuilds
the accounts tuple, replacing each account whose id matches by
`Account(id=a.id, name=a.name, balance=new_balance, currency=a.currency)`,
and returns `{**state, "accounts": new_accounts}`. -/
def update_account_balance (state : State) (acc_id : String)
    (new_balance : Int) : State :=
  { state with accounts := state.accounts.map (fun a =>
      if a.id == acc_id then
        { id := a.id, name := a.name, balance := new_balance,
          currency := a.currency }
      else a) }

/-- The `new_data` mapping passed to `update_transaction`, restricted to the
keys the function consults via `new_data.get(key, default)`, together with an
`id` key used to express that an `"id"` entry is never read. A `none` field
models an absent key. -/
structure NewData where
  id : Option String
  account_id : Option String
  cat_id : Option String
  amount : Option Int
  ts : Option String
  note : Option String
deriving DecidableEq, Repr

/-- `update_transaction` (src/core/state_utils.py, lines 20-33): rebuilds the
transactions tuple; the transaction whose id matches is replaced by a new
`Transaction` keeping `t.id` and taking each field from `new_data` when the
key is present, else the old value (`int(...)` on the integer amount is the
identity). -/
def update_transaction (state : State) (t_id : String) (new_data : NewData) :
    State :=
  { state with transactions := state.transactions.map (fun t =>
      if t.id == t_id then
        { id := t.id,
          account_id := new_data.account_id.getD t.account_id,
          cat_id := new_data.cat_id.getD t.cat_id,
          amount := new_data.amount.getD t.amount,
          ts := new_data.ts.getD t.ts,
          note := new_data.note.getD t.note }
      else t) }

/-- `delete_transaction` (src/core/state_utils.py, lines 35-38):
`new_transactions = tuple(t for t in transactions if t.id != t_id)`. -/
def delete_transaction (state : State) (t_id : String) : State :=
  { state with transactions := state.transactions.filter (fun t => t.id != t_id) }

/-- Abstract completion schedule for the async fan-out of
`expenses_by_month`: the tasks `calc_month(months[i])` finish in the order
given by `order` (a permutation of the task indices), each completion
reporting its task index and value. -/
def runSchedule (trans : List Transaction) (months : List String)
    (order : List Nat) : List (Nat × Int) :=
  order.map (fun i => (i, calc_month trans (months.getD i "")))

/-- `asyncio.gather` reassembles completed task results positionally: slot
`i` of the result list is the value reported by task `i`, `none` if task `i`
never completed. -/
def gatherResults (n : Nat) (completions : List (Nat × Int)) :
    List (Option Int) :=
  (List.range n).map (fun i => (completions.find? (fun p => p.1 == i)).map Prod.snd)

/-- Written from the spec's words (refinement reference for the month
aggregation): the sequential mapping sends each requested month `m` to the
sum of `abs(amount)` over transactions whose `ts` starts with `m` and whose
`amount < 0`. -/
def specMonthTotal (trans : List Transaction) (m : String) : Int :=
  ((trans.filter (fun t => strStartsWith t.ts m && decide (t.amount < 0))).map
    (fun t => |t.amount|)).sum

/-! Sample data used by the concrete-instance theorems, following the
scenario of spec §8. -/

def acct1 : Account := ⟨"a1", "Main", 1000, "USD"⟩

def acct2 : Account := ⟨"a2", "Savings", 500, "USD"⟩

def tx1 : Transaction := ⟨"t1", "a1", "food", -200, "2023-01-05T10:00:00", "grocery"⟩

def tx2 : Transaction := ⟨"t2", "a1", "food", -150, "2023-01-12T10:00:00", "cafe"⟩

def tx3 : Transaction := ⟨"t3", "a1", "rent", -500, "2023-01-01T09:00:00", "rent"⟩

def tx4 : Transaction := ⟨"t4", "a1", "food", 300, "2023-01-03T10:00:00", "refund"⟩

def sampleTrans : List Transaction := [tx1, tx2, tx3, tx4]

def sampleState : State := ⟨[acct1, acct2], [], sampleTrans, [], []⟩

/-! Helper lemmas -/

lemma get_map_eq {α β : Type} (f : α → β) (l : List α) (i : Nat)
    (h : i < l.length) (h2 : i < (l.map f).length) :
    (l.map f).get ⟨i, h2⟩ = f (l.get ⟨i, h⟩) := by
  simp [List.get_eq_getElem]

lemma map_self_of_fixed {α : Type} (f : α → α) (l : List α)
    (h : ∀ a ∈ l, f a = a) : l.map f = l := by
  rw [List.map_congr_left h]; exact List.map_id l

/-- C5: `category_report` returns `{cat_id, total_expense, transaction_count}`
computed over only the transactions of the category with negative amount:
the total is the sum of `abs(amount)` over them and the count is their
number, so income transactions of the category contribute to neither. -/
theorem category_report_expense_only (c : String) (trans : List Transaction) :
    (category_report c trans).cat_id = c ∧
    (category_report c trans).total_expense =
      ((trans.filter (fun t => decide (t.cat_id = c ∧ t.amount < 0))).map
        (fun t => |t.amount|)).sum ∧
    (category_report c trans).transaction_count =
      trans.countP (fun t => decide (t.cat_id = c ∧ t.amount < 0)) := by
  have hp : (fun t : Transaction => t.cat_id == c && decide (t.amount < 0)) =
      (fun t : Transaction => decide (t.cat_id = c ∧ t.amount < 0)) := by
    funext t
    by_cases h1 : t.cat_id = c <;> by_cases h2 : t.amount < 0 <;> simp [h1, h2]
  refine ⟨rfl, ?_, ?_⟩
  · simp only [category_report, hp]
  · simp only [category_report, hp, List.countP_eq_length_filter]

/-- C6: `update_account_balance` leaves every state field other than
`accounts` unchanged, keeps the accounts sequence's length and order,
replaces each account whose id matches by the same account with balance
`new_balance` (id, name, currency unchanged), and leaves every other
account unchanged. -/
theorem update_account_balance_frame (s : State) (acc_id : String) (nb : Int) :
    (update_account_balance s acc_id nb).categories = s.categories ∧
    (update_account_balance s acc_id nb).transactions = s.transactions ∧
    (update_account_balance s acc_id nb).budgets = s.budgets ∧
    (update_account_balance s acc_id nb).alerts = s.alerts ∧
    (update_account_balance s acc_id nb).accounts.length = s.accounts.length ∧
    ∀ (i : Nat) (h : i < s.accounts.length)
      (h2 : i < (update_account_balance s acc_id nb).accounts.length),
      ((s.accounts.get ⟨i, h⟩).id = acc_id →
        (update_account_balance s acc_id nb).accounts.get ⟨i, h2⟩ =
          { s.accounts.get ⟨i, h⟩ with balance := nb }) ∧
      ((s.accounts.get ⟨i, h⟩).id ≠ acc_id →
        (update_account_balance s acc_id nb).accounts.get ⟨i, h2⟩ =
          s.accounts.get ⟨i, h⟩) := by
  refine ⟨rfl, rfl, rfl, rfl, List.length_map .., ?_⟩
  intro i h h2
  rw [show (update_account_balance s acc_id nb).accounts.get ⟨i, h2⟩ =
      (if (s.accounts.get ⟨i, h⟩).id == acc_id then
        { id := (s.accounts.get ⟨i, h⟩).id, name := (s.accounts.get ⟨i, h⟩).name,
          balance := nb, currency := (s.accounts.get ⟨i, h⟩).currency }
      else s.accounts.get ⟨i, h⟩) from get_map_eq _ _ i h h2]
  constructor
  · intro hid
    rw [if_pos (by simp only [List.get_eq_getElem] at hid; simp [hid])]
  · intro hid
    rw [if_neg (by simp only [List.get_eq_getElem] at hid; simp [hid])]

/-- Witness for C6 at the sample state: account `a1` is at index 0 and gets
balance 950, matching the §8 scenario. -/
theorem update_account_balance_frame_check :
    (sampleState.accounts.get ⟨0, by decide⟩).id = "a1" ∧
    (update_account_balance sampleState "a1" 950).accounts.get ⟨0, by decide⟩ =
      { sampleState.accounts.get ⟨0, by decide⟩ with balance := 950 } :=
  ⟨by decide,
    ((update_account_balance_frame sampleState "a1" 950).2.2.2.2.2 0 (by decide)
      (by decide)).1 (by decide)⟩

/-- C7: `delete_transaction` removes exactly the transactions whose id is
`t_id`: the result's transactions form a sublist of the old sequence (order
preserved, remaining values unmodified), a transaction with the deleted id
has count 0 and any other transaction keeps its multiplicity; every other
state field is unchanged. -/
theorem delete_transaction_removes (s : State) (tid : String) :
    (delete_transaction s tid).accounts = s.accounts ∧
    (delete_transaction s tid).categories = s.categories ∧
    (delete_transaction s tid).budgets = s.budgets ∧
    (delete_transaction s tid).alerts = s.alerts ∧
    (delete_transaction s tid).transactions.Sublist s.transactions ∧
    ∀ t : Transaction,
      (delete_transaction s tid).transactions.count t =
        if t.id = tid then 0 else s.transactions.count t := by
  refine ⟨rfl, rfl, rfl, rfl, List.filter_sublist _, ?_⟩
  intro t
  by_cases h : t.id = tid
  · rw [if_pos h]
    refine List.count_eq_zero.2 ?_
    intro hmem
    have hpred := List.of_mem_filter hmem
    simp [h] at hpred
  · rw [if_neg h]
    exact List.count_filter (by simp [h])

/-- C8: when no account has the requested id, `update_account_balance` is a
silent no-op: it returns the state unchanged (in particular the same account
values) and, being a total function, signals nothing. -/
theorem update_account_balance_noop (s : State) (acc_id : String) (nb : Int)
    (h : ∀ a ∈ s.accounts, a.id ≠ acc_id) :
    update_account_balance s acc_id nb = s := by
  have hacc : (update_account_balance s acc_id nb).accounts = s.accounts := by
    refine map_self_of_fixed _ _ ?_
    intro a ha
    rw [if_neg (by simp [h a ha])]
  cases s
  simpa [update_account_balance] using hacc

/-- Witness for C8: no account of the sample state has id `zzz`, and the
update with that id returns the state unchanged. -/
theorem update_account_balance_noop_check :
    (∀ a ∈ sampleState.accounts, a.id ≠ "zzz") ∧
    update_account_balance sampleState "zzz" 7 = sampleState :=
  ⟨by decide, update_account_balance_noop sampleState "zzz" 7 (by decide)⟩

/-- C9: `update_transaction` keeps the length and order of the transactions
sequence and every other state field; the `id` entry of `new_data` is
ignored; a transaction whose id differs is unchanged; the transaction whose
id matches keeps its id, keeps each field whose key is absent from
`new_data`, and takes the new value of each field present; when no
transaction has the id, the state is returned unchanged. -/
theorem update_transaction_fields (s : State) (tid : String) (nd : NewData) :
    (update_transaction s tid nd).accounts = s.accounts ∧
    (update_transaction s tid nd).categories = s.categories ∧
    (update_transaction s tid nd).budgets = s.budgets ∧
    (update_transaction s tid nd).alerts = s.alerts ∧
    (update_transaction s tid nd).transactions.length = s.transactions.length ∧
    (∀ x : Option String,
      update_transaction s tid { nd with id := x } = update_transaction s tid nd) ∧
    ((∀ t ∈ s.transactions, t.id ≠ tid) → update_transaction s tid nd = s) ∧
    ∀ (i : Nat) (h : i < s.transactions.length)
      (h2 : i < (update_transaction s tid nd).transactions.length),
      ((s.transactions.get ⟨i, h⟩).id ≠ tid →
        (update_transaction s tid nd).transactions.get ⟨i, h2⟩ =
          s.transactions.get ⟨i, h⟩) ∧
      ((s.transactions.get ⟨i, h⟩).id = tid →
        ((update_transaction s tid nd).transactions.get ⟨i, h2⟩).id =
          (s.transactions.get ⟨i, h⟩).id ∧
        (nd.account_id = none →
          ((update_transaction s tid nd).transactions.get ⟨i, h2⟩).account_id =
            (s.transactions.get ⟨i, h⟩).account_id) ∧
        (∀ v, nd.account_id = some v →
          ((update_transaction s tid nd).transactions.get ⟨i, h2⟩).account_id = v) ∧
        (nd.cat_id = none →
          ((update_transaction s tid nd).transactions.get ⟨i, h2⟩).cat_id =
            (s.transactions.get ⟨i, h⟩).cat_id) ∧
        (∀ v, nd.cat_id = some v →
          ((update_transaction s tid nd).transactions.get ⟨i, h2⟩).cat_id = v) ∧
        (nd.amount = none →
          ((update_transaction s tid nd).transactions.get ⟨i, h2⟩).amount =
            (s.transactions.get ⟨i, h⟩).amount) ∧
        (∀ v, nd.amount = some v →
          ((update_transaction s tid nd).transactions.get ⟨i, h2⟩).amount = v) ∧
        (nd.ts = none →
          ((update_transaction s tid nd).transactions.get ⟨i, h2⟩).ts =
            (s.transactions.get ⟨i, h⟩).ts) ∧
        (∀ v, nd.ts = some v →
          ((update_transaction s tid nd).transactions.get ⟨i, h2⟩).ts = v) ∧
        (nd.note = none →
          ((update_transaction s tid nd).transactions.get ⟨i, h2⟩).note =
            (s.transactions.get ⟨i, h⟩).note) ∧
        ∀ v, nd.note = some v →
          ((update_transaction s tid nd).transactions.get ⟨i, h2⟩).note = v) := by
  refine ⟨rfl, rfl, rfl, rfl, List.length_map .., fun x => rfl, ?_, ?_⟩
  · intro h
    have htr : (update_transaction s tid nd).transactions = s.transactions := by
      refine map_self_of_fixed _ _ ?_
      intro t ht
      rw [if_neg (by simp [h t ht])]
    cases s
    simpa [update_transaction] using htr
  · intro i h h2
    rw [show (update_transaction s tid nd).transactions.get ⟨i, h2⟩ =
        (if (s.transactions.get ⟨i, h⟩).id == tid then
          { id := (s.transactions.get ⟨i, h⟩).id,
            account_id := nd.account_id.getD (s.transactions.get ⟨i, h⟩).account_id,
            cat_id := nd.cat_id.getD (s.transactions.get ⟨i, h⟩).cat_id,
            amount := nd.amount.getD (s.transactions.get ⟨i, h⟩).amount,
            ts := nd.ts.getD (s.transactions.get ⟨i, h⟩).ts,
            note := nd.note.getD (s.transactions.get ⟨i, h⟩).note }
        else s.transactions.get ⟨i, h⟩) from get_map_eq _ _ i h h2]
    constructor
    · intro hid
      rw [if_neg (by simp only [List.get_eq_getElem] at hid; simp [hid])]
    · intro hid
      rw [if_pos (by simp only [List.get_eq_getElem] at hid; simp [hid])]
      refine ⟨rfl, ?_, ?_, ?_, ?_, ?_, ?_, ?_, ?_, ?_, ?_⟩ <;>
        first
          | (intro hn; simp [hn])
          | (intro v hv; simp [hv])

/-- Witness for C9 at the sample state: the edit of transaction `t1` from
`app/main.py` (amount and note supplied, other keys absent) keeps id and ts
and applies the two new values; transaction `t2` is untouched. -/
theorem update_transaction_fields_check :
    (sampleTrans.get ⟨0, by decide⟩).id = "t1" ∧
    ((update_transaction sampleState "t1"
        ⟨none, none, none, some (-250), none, some "edited"⟩).transactions.get
      ⟨0, by decide⟩).amount = -250 ∧
    ((update_transaction sampleState "t1"
        ⟨none, none, none, some (-250), none, some "edited"⟩).transactions.get
      ⟨0, by decide⟩).ts = (sampleTrans.get ⟨0, by decide⟩).ts ∧
    (update_transaction sampleState "t1"
        ⟨none, none, none, some (-250), none, some "edited"⟩).transactions.get
      ⟨1, by decide⟩ = sampleTrans.get ⟨1, by decide⟩ := by
  have h := update_transaction_fields sampleState "t1"
    ⟨none, none, none, some (-250), none, some "edited"⟩
  have h0 := (h.2.2.2.2.2.2.2 0 (by decide) (by decide)).2 (by decide)
  have h1 := (h.2.2.2.2.2.2.2 1 (by decide) (by decide)).1 (by decide)
  exact ⟨by decide, h0.2.2.2.2.2.2.1 (-250) rfl, h0.2.2.2.2.2.2.2.1 rfl, h1⟩

/-! Budgets used by the concrete-instance theorems; `bdgFood` is the §8
scenario budget, `bdgDup` shares its id with a different category and
limit. -/

def bdgFood : Budget := ⟨"b1", "food", 300, "monthly"⟩

def bdgDup : Budget := ⟨"b1", "rent", 1000, "monthly"⟩

lemma spentFor_eq_spec (trans : List Transaction) (c : String) :
    spentFor trans c =
      ((trans.filter (fun t => decide (t.cat_id = c ∧ t.amount < 0))).map
        (fun t => |t.amount|)).sum := by
  have hp : (fun t : Transaction => t.cat_id == c && decide (t.amount < 0)) =
      (fun t : Transaction => decide (t.cat_id = c ∧ t.amount < 0)) := by
    funext t
    by_cases h1 : t.cat_id = c <;> by_cases h2 : t.amount < 0 <;> simp [h1, h2]
  simp only [spentFor, hp]

lemma reportEntry_limit (trans : List Transaction) (b : Budget) :
    (reportEntry trans b).limit = b.limit := rfl

lemma reportEntry_spent (trans : List Transaction) (b : Budget) :
    (reportEntry trans b).spent = spentFor trans b.cat_id := rfl

lemma reportEntry_status (trans : List Transaction) (b : Budget) :
    (reportEntry trans b).status =
      if spentFor trans b.cat_id ≤ b.limit then "OK" else "OVER" := rfl

lemma dictGet_monthly_report (budgets : List Budget) (trans : List Transaction)
    (k : String) :
    dictGet (monthly_report budgets trans) k =
      (budgets.reverse.find? (fun b => b.id == k)).map (reportEntry trans) := by
  unfold dictGet monthly_report
  rw [← List.map_reverse, List.find?_map, Option.map_map]
  rfl

lemma dictGet_monthly_report_last (trans : List Transaction) (l1 : List Budget)
    (b : Budget) (l2 : List Budget) (h : ∀ b2 ∈ l2, b2.id ≠ b.id) :
    dictGet (monthly_report (l1 ++ b :: l2) trans) b.id =
      some (reportEntry trans b) := by
  rw [dictGet_monthly_report]
  have hrev : (l1 ++ b :: l2).reverse = l2.reverse ++ b :: l1.reverse := by
    simp
  rw [hrev, List.find?_append]
  have hnone : l2.reverse.find? (fun b2 => b2.id == b.id) = none := by
    refine List.find?_eq_none.2 ?_
    intro b2 hb2
    simp [h b2 (List.mem_reverse.1 hb2)]
  rw [hnone, Option.none_or, List.find?_cons_of_pos _ (by simp)]
  rfl

/-- C10: the keys of the mapping returned by `monthly_report` are exactly the
ids of the input budgets, and when several budgets share an id the single
entry for that id is the one computed from the last such budget in input
order. -/
theorem monthly_report_keys_last_wins (budgets : List Budget)
    (trans : List Transaction) :
    (∀ k : String,
      (dictGet (monthly_report budgets trans) k).isSome ↔
        k ∈ budgets.map Budget.id) ∧
    ∀ (l1 : List Budget) (b : Budget) (l2 : List Budget),
      budgets = l1 ++ b :: l2 → (∀ b2 ∈ l2, b2.id ≠ b.id) →
      dictGet (monthly_report budgets trans) b.id =
        some (reportEntry trans b) := by
  constructor
  · intro k
    rw [dictGet_monthly_report]
    simp [List.find?_isSome, List.mem_reverse, List.mem_map]
  · intro l1 b l2 hb h
    rw [hb]
    exact dictGet_monthly_report_last trans l1 b l2 h

/-- Witness for C10 at two budgets sharing id `b1`: the entry is the one
computed from the later budget `bdgDup` (limit 1000, rent), not from
`bdgFood`. -/
theorem monthly_report_keys_last_wins_check :
    ([bdgFood, bdgDup] = [bdgFood] ++ bdgDup :: ([] : List Budget)) ∧
    (∀ b2 ∈ ([] : List Budget), b2.id ≠ bdgDup.id) ∧
    ("b1" ∈ [bdgFood, bdgDup].map Budget.id) ∧
    dictGet (monthly_report [bdgFood, bdgDup] sampleTrans) bdgDup.id =
      some (reportEntry sampleTrans bdgDup) := by
  have h := monthly_report_keys_last_wins [bdgFood, bdgDup] sampleTrans
  exact ⟨rfl, by simp, by decide,
    h.2 [bdgFood] bdgDup [] rfl (by intro b2 hb2; cases hb2)⟩

/-- Counterexample for C1 as stated: with two budgets sharing id `b1`, the
entry for `bdgFood.id` is not the one computed from `bdgFood` — its food
spending is 350 over the 300 limit, yet the mapping holds the later rent
budget's entry `{limit 1000, spent 500, status OK}`. -/
theorem monthly_report_dup_id_cex :
    bdgFood ∈ ([bdgFood, bdgDup] : List Budget) ∧
    spentFor sampleTrans bdgFood.cat_id > bdgFood.limit ∧
    dictGet (monthly_report [bdgFood, bdgDup] sampleTrans) bdgFood.id =
      some ⟨1000, 500, "OK"⟩ ∧
    dictGet (monthly_report [bdgFood, bdgDup] sampleTrans) bdgFood.id ≠
      some ⟨bdgFood.limit, spentFor sampleTrans bdgFood.cat_id, "OVER"⟩ := by
  refine ⟨by decide, by decide, by decide, by decide⟩

/-- C1 amended: when the budgets' ids are pairwise distinct, the entry for
each budget's id is `{limit, spent, status}` with `spent` the sum of
`abs(amount)` over the budget's category's expense transactions and
`status = "OVER"` iff `spent > limit` (else `"OK"`). -/
theorem monthly_report_distinct_ids (budgets : List Budget)
    (trans : List Transaction) (hnd : (budgets.map Budget.id).Nodup)
    (b : Budget) (hb : b ∈ budgets) :
    dictGet (monthly_report budgets trans) b.id = some (reportEntry trans b) ∧
    (reportEntry trans b).limit = b.limit ∧
    (reportEntry trans b).spent =
      ((trans.filter (fun t => decide (t.cat_id = b.cat_id ∧ t.amount < 0))).map
        (fun t => |t.amount|)).sum ∧
    ((reportEntry trans b).status = "OVER" ↔ (reportEntry trans b).spent > b.limit) ∧
    ((reportEntry trans b).status = "OVER" ∨ (reportEntry trans b).status = "OK") := by
  obtain ⟨l1, l2, hdecomp⟩ := List.append_of_mem hb
  have hl2 : ∀ b2 ∈ l2, b2.id ≠ b.id := by
    have hmap : (budgets.map Budget.id) = l1.map Budget.id ++ b.id :: l2.map Budget.id := by
      rw [hdecomp]; simp
    have hcons : (b.id :: l2.map Budget.id).Nodup := by
      rw [hmap] at hnd
      exact hnd.of_append_right
    have hnotmem : b.id ∉ l2.map Budget.id := (List.nodup_cons.1 hcons).1
    intro b2 hb2 heq
    exact hnotmem (List.mem_map.2 ⟨b2, hb2, heq⟩)
  refine ⟨?_, rfl, ?_, ?_, ?_⟩
  · rw [hdecomp]
    exact dictGet_monthly_report_last trans l1 b l2 hl2
  · exact spentFor_eq_spec trans b.cat_id
  · rw [reportEntry_status, reportEntry_spent]
    by_cases hle : spentFor trans b.cat_id ≤ b.limit
    · rw [if_pos hle]
      constructor
      · intro hok; exact absurd hok (by decide)
      · intro hgt; exact absurd hle (not_le.2 hgt)
    · rw [if_neg hle]
      exact ⟨fun _ => lt_of_not_le hle, fun _ => rfl⟩
  · rw [reportEntry_status]
    by_cases hle : spentFor trans b.cat_id ≤ b.limit
    · right; rw [if_pos hle]
    · left; rw [if_neg hle]

/-- Witness for C1 amended at the §8 scenario: food spending 350 against
limit 300 gives the entry `{limit 300, spent 350, status OVER}`. -/
theorem monthly_report_distinct_ids_check :
    ([bdgFood].map Budget.id).Nodup ∧ bdgFood ∈ [bdgFood] ∧
    dictGet (monthly_report [bdgFood] sampleTrans) bdgFood.id =
      some (reportEntry sampleTrans bdgFood) ∧
    reportEntry sampleTrans bdgFood = ⟨300, 350, "OVER"⟩ := by
  have h := monthly_report_distinct_ids [bdgFood] sampleTrans (by decide)
    bdgFood (by decide)
  exact ⟨by decide, by decide, h.1, by decide⟩

lemma expenses_by_month_eq_map (trans : List Transaction)
    (months : List String) :
    expenses_by_month trans months =
      months.map (fun m => (m, calc_month trans m)) := by
  have h := List.zip_map' id (calc_month trans) months
  simpa [expenses_by_month] using h

lemma find?_beq_self {m : String} {l : List String} (h : m ∈ l) :
    l.find? (fun x => x == m) = some m := by
  induction l with
  | nil => cases h
  | cons a l ih =>
    by_cases ha : a = m
    · subst ha
      exact List.find?_cons_of_pos _ (by simp)
    · rw [List.find?_cons_of_neg _ (by simp [ha])]
      rcases List.mem_cons.1 h with h1 | h1
      · exact absurd h1.symm ha
      · exact ih h1

lemma dictGet_expenses_by_month (trans : List Transaction)
    (months : List String) (m : String) (hm : m ∈ months) :
    dictGet (expenses_by_month trans months) m = some (calc_month trans m) := by
  rw [expenses_by_month_eq_map]
  unfold dictGet
  rw [← List.map_reverse, List.find?_map, Option.map_map]
  have hfind := find?_beq_self (List.mem_reverse.2 hm)
  have hpred : ((fun p : String × Int => p.1 == m) ∘
      fun x => (x, calc_month trans x)) = fun x => x == m := rfl
  rw [hpred, hfind]
  rfl

lemma find?_runSchedule (trans : List Transaction) (months : List String)
    (order : List Nat) (i : Nat) (h : i ∈ order) :
    (runSchedule trans months order).find? (fun p => p.1 == i) =
      some (i, calc_month trans (months.getD i "")) := by
  induction order with
  | nil => cases h
  | cons j rest ih =>
    rw [show runSchedule trans months (j :: rest) =
        (j, calc_month trans (months.getD j "")) ::
          runSchedule trans months rest from rfl]
    by_cases hj : j = i
    · subst hj
      exact List.find?_cons_of_pos _ (by simp)
    · rw [List.find?_cons_of_neg _ (by simp [hj])]
      rcases List.mem_cons.1 h with h1 | h1
      · exact absurd h1.symm hj
      · exact ih h1

/-- C3: every requested month appears as a key of the mapping returned by
`expenses_by_month`, and a requested month with no matching expense
transaction is mapped to 0, never omitted. -/
theorem expenses_by_month_no_omission (trans : List Transaction)
    (months : List String) (m : String) (hm : m ∈ months) :
    (dictGet (expenses_by_month trans months) m).isSome ∧
    ((∀ t ∈ trans, ¬(strStartsWith t.ts m = true ∧ t.amount < 0)) →
      dictGet (expenses_by_month trans months) m = some 0) := by
  rw [dictGet_expenses_by_month trans months m hm]
  refine ⟨rfl, ?_⟩
  intro h
  have hnil : trans.filter
      (fun t => strStartsWith t.ts m && decide (t.amount < 0)) = [] := by
    refine List.filter_eq_nil_iff.2 ?_
    intro t ht
    simp only [Bool.and_eq_true, decide_eq_true_eq]
    intro hc
    exact h t ht hc
  rw [show calc_month trans m =
      ((trans.filter (fun t => strStartsWith t.ts m && decide (t.amount < 0))).map
        (fun t => |t.amount|)).sum from rfl, hnil]
  rfl

/-- Witness for C3 at the §8 scenario: the sample transactions have no
2023-02 expense, yet `2023-02` is present and mapped to 0. -/
theorem expenses_by_month_no_omission_check :
    ("2023-02" ∈ ["2023-01", "2023-02"]) ∧
    (∀ t ∈ sampleTrans, ¬(strStartsWith t.ts "2023-02" = true ∧ t.amount < 0)) ∧
    dictGet (expenses_by_month sampleTrans ["2023-01", "2023-02"]) "2023-02" =
      some 0 :=
  ⟨by decide, by decide,
    (expenses_by_month_no_omission sampleTrans ["2023-01", "2023-02"] "2023-02"
      (by decide)).2 (by decide)⟩

/-- C2: the async month fan-out is schedule-independent: for every completion
order of the per-month tasks (any permutation of the task indices), the
positional reassembly fills every slot with that month's sum, so the joined
mapping equals the sequential reference mapping that sends each requested
month to its expense total written from the spec. -/
theorem expenses_by_month_schedule_independent (trans : List Transaction)
    (months : List String) (order : List Nat)
    (hperm : order.Perm (List.range months.length)) :
    gatherResults months.length (runSchedule trans months order) =
      (months.map (calc_month trans)).map some ∧
    expenses_by_month trans months = months.zip (months.map (calc_month trans)) ∧
    ∀ m ∈ months,
      dictGet (expenses_by_month trans months) m = some (specMonthTotal trans m) := by
  refine ⟨?_, rfl, ?_⟩
  · refine List.ext_get (by simp [gatherResults]) ?_
    intro i h1 h2
    have hi : i < months.length := by
      simpa [gatherResults] using h1
    have hmem : i ∈ order := hperm.mem_iff.2 (List.mem_range.2 hi)
    have hidx : (List.range months.length).get ⟨i, by simpa using hi⟩ = i := by
      simp
    rw [show (gatherResults months.length
        (runSchedule trans months order)).get ⟨i, h1⟩ =
        ((runSchedule trans months order).find?
          (fun p => p.1 == (List.range months.length).get ⟨i, by simpa using hi⟩)).map
            Prod.snd from by simp [gatherResults, List.get_eq_getElem], hidx,
      find?_runSchedule trans months order i hmem]
    simp [List.get_eq_getElem, List.getElem?_eq_getElem hi]
  · intro m hm
    rw [dictGet_expenses_by_month trans months m hm]
    rfl

/-- Witness for C2: with the two §8 months completing in reversed order, the
reassembled results equal the sequential per-month sums. -/
theorem expenses_by_month_schedule_independent_check :
    ([1, 0].Perm (List.range (["2023-01", "2023-02"] : List String).length)) ∧
    gatherResults (["2023-01", "2023-02"] : List String).length
        (runSchedule sampleTrans ["2023-01", "2023-02"] [1, 0]) =
      ((["2023-01", "2023-02"] : List String).map
        (calc_month sampleTrans)).map some :=
  ⟨by decide,
    (expenses_by_month_schedule_independent sampleTrans ["2023-01", "2023-02"]
      [1, 0] (by decide)).1⟩

/-- Counterexample for C4 as stated: `expenses_by_month` accepts no deadline
and has no failure outcome — at a concrete input it simply returns the
complete mapping for every requested month, so no `Timeout` error can reach
the caller. -/
theorem expenses_by_month_no_timeout_cex :
    expenses_by_month sampleTrans ["2023-01", "2023-02"] =
      [("2023-01", 850), ("2023-02", 0)] := by decide

/-- C4 amended: `expenses_by_month` offers no timeout; it takes only the
transactions and the requested months, unconditionally awaits every
per-month computation, and always returns the complete mapping whose keys
are exactly the requested months. -/
theorem expenses_by_month_always_total (trans : List Transaction)
    (months : List String) :
    (expenses_by_month trans months).map Prod.fst = months := by
  rw [expenses_by_month_eq_map, List.map_map]
  exact map_self_of_fixed _ _ (fun a _ => rfl)

end FinMan
